import Mathlib

/-!
Shallow embedding of the gollm conversational tool-calling core
(package `backend`: `backend.go`, `tools.go`, the Ollama adapter and the
OpenAI adapter), together with theorems settling the specification claims.

Modelling conventions:
* Go `any` payloads (`map[string]any` values) are modelled by the JSON-like
  type `JValue`; a Go map `map[string]T` is an association list with
  assignment-overwrites-previous semantics (`mapSet`) and key lookup
  (`mapGet`).
* Go errors are the inductive `GoError`; `errors.Is(err, ErrToolNotFound)`
  is `GoError.isToolNotFound`, which unwraps `fmt.Errorf("...%w...")` chains.
* A Go function returning `(T, error)` is modelled returning
  `T × Option GoError` when both components matter (the tool wrapper and
  `ExecuteTool`), and `GoOutcome T` for the adapter entry points, where
  `GoOutcome.panic` models a Go runtime panic (index out of range).
* The HTTP transport is external: an adapter call is modelled from the point
  where the provider's 200-status response has been decoded successfully;
  the decoded responses are supplied by an oracle (one per outbound request)
  and each outbound request that would have been sent is returned, so that
  request counts and request shapes are observable.
* Go map iteration order (`for ... range m`) is unspecified; where it is
  observable (`ToolsMap`) the iteration order is an explicit parameter
  ranging over permutations of the stored entries.
-/

namespace Gollm

/-- JSON-like dynamic value, modelling Go `any` payloads. -/
inductive JValue where
  | str : String → JValue
  | num : Int → JValue
  | bool : Bool → JValue
  | null : JValue
  | arr : List JValue → JValue
  | obj : List (String × JValue) → JValue
deriving Repr

/-- Go map assignment `m[k] = v`: any previous binding of `k` is overwritten. -/
def mapSet {α : Type} (m : List (String × α)) (k : String) (v : α) :
    List (String × α) :=
  m.filter (fun p => p.1 ≠ k) ++ [(k, v)]

/-- Go map lookup `m[k]` (`none` when the key is absent). -/
def mapGet {α : Type} (m : List (String × α)) (k : String) : Option α :=
  (m.find? (fun p => p.1 == k)).map Prod.snd

/-- Value a Go map holds at `k` after assigning the bindings of `fields` in
list order: the last binding for `k` wins. -/
def lookupLast {α : Type} (fields : List (String × α)) (k : String) : Option α :=
  (fields.reverse.find? (fun p => p.1 == k)).map Prod.snd

/-- Go `error` values produced by the `backend` package. -/
inductive GoError where
  /-- The sentinel `ErrToolNotFound = fmt.Errorf("tool not found")`. -/
  | toolNotFound : GoError
  /-- A `fmt.Errorf` without `%w` (no wrapped cause). -/
  | errorf : String → GoError
  /-- A `fmt.Errorf` with `%w`: surrounding text plus the wrapped cause. -/
  | wrap : String → GoError → GoError
deriving Repr, DecidableEq

/-- Go `errors.Is(e, ErrToolNotFound)`: walks the `%w` wrap chain. -/
def GoError.isToolNotFound : GoError → Bool
  | .toolNotFound => true
  | .errorf _ => false
  | .wrap _ e => e.isToolNotFound

/-- Outcome of a Go call returning `(α, error)`: a normal value, an error
return, or a runtime panic (e.g. index out of range). -/
inductive GoOutcome (α : Type) where
  | ok : α → GoOutcome α
  | err : GoError → GoOutcome α
  | panic : String → GoOutcome α
deriving Repr

/-- Message from `backend.go`: a single role-based message of a conversation;
`Fields` is the Go map `Fields map[string]any`. -/
structure Message where
  Role : String
  Content : String
  Fields : List (String × JValue) := []

/-- Parameters from `backend.go` (generation settings); the `float64` fields
are modelled as rationals, they are only carried, never computed with. -/
structure Parameters where
  MaxTokens : Int := 0
  Temperature : Rat := 0
  TopP : Rat := 0
  FrequencyPenalty : Rat := 0
  PresencePenalty : Rat := 0

/-- ToolWrapper from `tools.go`: `func(args map[string]any) (string, error)`. -/
def ToolWrapper : Type := List (String × JValue) → String × Option GoError

/-- ToolFunction from `tools.go`. -/
structure ToolFunction where
  Name : String
  Description : String
  Parameters : JValue
  Wrapper : ToolWrapper

/-- Tool from `tools.go`; the Go field `Type` is rendered `Type'` because
`Type` is a Lean keyword. -/
structure Tool where
  Type' : String
  Function : ToolFunction

/-- ToolRegistry from `tools.go`: the Go map `tools map[string]Tool`
(the mutex only serialises access and is not modelled). -/
def ToolRegistry : Type := List (String × Tool)

/-- NewToolRegistry from `tools.go`. -/
def NewToolRegistry : ToolRegistry := []

/-- RegisterTool from `tools.go`: `r.tools[t.Function.Name] = t`. -/
def RegisterTool (r : ToolRegistry) (t : Tool) : ToolRegistry :=
  mapSet r t.Function.Name t

/-- ToMap from `utils.go` applied to a `Tool`: the JSON marshal/unmarshal
round trip yields the tool's JSON object; the `Wrapper` field has tag
`json:"-"` and is omitted. Marshalling a `Tool` cannot fail. -/
def toolToMap (t : Tool) : List (String × JValue) :=
  [("type", .str t.Type'),
   ("function", .obj
      [("name", .str t.Function.Name),
       ("description", .str t.Function.Description),
       ("parameters", t.Function.Parameters)])]

/-- ToolsMap from `tools.go`, evaluated with an explicit iteration order:
Go iterates `for _, tool := range r.tools` in an unspecified order, so the
entry sequence `entries` (any permutation of the registry's entries) is a
parameter. Each entry is converted with `ToMap`. -/
def ToolsMapIter (entries : List (String × Tool)) : List (List (String × JValue)) :=
  entries.map (fun p => toolToMap p.2)

/-- ToolsMap from `tools.go` in the registry's storage order (one legal
iteration order). -/
def ToolsMap (r : ToolRegistry) : List (List (String × JValue)) :=
  ToolsMapIter r

/-- ExecuteTool from `tools.go`: looks the tool up by name; when absent,
returns `("", fmt.Errorf("%w: %s", ErrToolNotFound, toolName))`; otherwise
calls the registered wrapper and returns its result pair unchanged. -/
def ExecuteTool (r : ToolRegistry) (toolName : String)
    (args : List (String × JValue)) : String × Option GoError :=
  match mapGet r toolName with
  | none => ("", some (.wrap toolName .toolNotFound))
  | some toolEntry => toolEntry.Function.Wrapper args

/-- Prompt from `backend.go`: messages, generation parameters and the
conversation's tool registry. -/
structure Prompt where
  Messages : List Message := []
  Parameters : Gollm.Parameters := {}
  Tools : ToolRegistry := NewToolRegistry

/-- AddMessage from `backend.go`: appends a plain message. -/
def Prompt.AddMessage (p : Prompt) (role content : String) : Prompt :=
  { p with Messages := p.Messages ++ [{ Role := role, Content := content }] }

/-- AppendMessage from `backend.go`: appends a message carrying fields. -/
def Prompt.AppendMessage (p : Prompt) (msg : Message) : Prompt :=
  { p with Messages := p.Messages ++ [msg] }

/-- SetParameters from `backend.go`. -/
def Prompt.SetParameters (p : Prompt) (params : Gollm.Parameters) : Prompt :=
  { p with Parameters := params }

/-- The per-message map built by `AsMap` in `backend.go`: the literal
`{"role": ..., "content": ...}` followed by one assignment per entry of the
message's `Fields` map. -/
def msgToMap (m : Message) : List (String × JValue) :=
  m.Fields.foldl (fun acc kv => mapSet acc kv.1 kv.2)
    (mapSet (mapSet [] "role" (.str m.Role)) "content" (.str m.Content))

/-- AsMap from `backend.go`: one map per message, in message order (the Go
function also returns an error, which is always nil). -/
def Prompt.AsMap (p : Prompt) : List (List (String × JValue)) :=
  p.Messages.map msgToMap

/-- FunctionCall from `backend.go` (response side); `Result any` holds the
tool's output (the adapters store the raw output string). -/
structure FunctionCall where
  Name : String
  Arguments : List (String × JValue)
  Result : JValue

/-- ToolCall from `backend.go` (response side). -/
structure ToolCall where
  Function : FunctionCall

/-- PromptResponse from `backend.go`: the adapter's return value. -/
structure PromptResponse where
  Role : String := ""
  Content : String := ""
  ToolCalls : List ToolCall := []

/-- OllamaFunctionCall from the Ollama adapter. -/
structure OllamaFunctionCall where
  Name : String
  Arguments : List (String × JValue)

/-- OllamaToolCall from the Ollama adapter. -/
structure OllamaToolCall where
  Function : OllamaFunctionCall

/-- OllamaResponseMessage from the Ollama adapter. -/
structure OllamaResponseMessage where
  Role : String := ""
  Content : String := ""
  ToolCalls : List OllamaToolCall := []

/-- OllamaResponse from the Ollama adapter (the numeric duration/count
metadata fields are carried but unused by the adapter logic). -/
structure OllamaResponse where
  Model : String := ""
  CreatedAt : String := ""
  Response : String := ""
  Done : Bool := false
  DoneReason : String := ""
  Context : List Int := []
  TotalDuration : Int := 0
  LoadDuration : Int := 0
  PromptEvalCount : Int := 0
  PromptEvalDuration : Int := 0
  EvalCount : Int := 0
  EvalDuration : Int := 0
  Message : OllamaResponseMessage := {}

/-- OllamaBackend configuration (the HTTP client itself is external). -/
structure OllamaBackend where
  Model : String := ""
  BaseURL : String := ""

/-- ollamaConversationOption from the Ollama adapter. -/
structure ollamaConversationOpt where
  disableTools : Bool := false

/-- The request body `converseRoundTrip` marshals and POSTs to `/api/chat`:
`{"model": ..., "messages": msgMap, "stream": false}` plus `"tools": toolMap`
unless `opts.disableTools`; `tools = none` models the omitted key. -/
structure OllamaChatRequest where
  model : String
  messages : List (List (String × JValue))
  stream : Bool
  tools : Option (List (List (String × JValue)))

/-- The `for _, toolCall := range result.Message.ToolCalls` loop of
`converseRoundTrip`: executes each call against the registry; on
`errors.Is(err, ErrToolNotFound)` returns the bare sentinel, on any other
error returns `fmt.Errorf("failed to execute tool: %w", err)`; on success
appends a `tool`-role message with the raw output and accumulates a
`ToolCall` record. Returns the loop's result together with the prompt as
mutated so far. -/
def ollamaToolLoop (tools : ToolRegistry) (prompt : Prompt)
    (acc : List ToolCall) :
    List OllamaToolCall → GoOutcome (List ToolCall) × Prompt
  | [] => (.ok acc, prompt)
  | toolCall :: rest =>
    let toolName := toolCall.Function.Name
    let toolArgs := toolCall.Function.Arguments
    let execRes := ExecuteTool tools toolName toolArgs
    match execRes.2 with
    | some e =>
      if e.isToolNotFound then (.err .toolNotFound, prompt)
      else (.err (.wrap "failed to execute tool" e), prompt)
    | none =>
      ollamaToolLoop tools (prompt.AddMessage "tool" execRes.1)
        (acc ++ [⟨⟨toolName, toolArgs, .str execRes.1⟩⟩]) rest

/-- converseRoundTrip from the Ollama adapter, modelled from the point where
the 200-status response has been decoded into `result` (the HTTP exchange is
the external oracle); additionally returns the prompt after the adapter's
in-place mutations and the outbound request that was issued. -/
def OllamaBackend.converseRoundTrip (o : OllamaBackend) (prompt : Prompt)
    (opts : ollamaConversationOpt) (result : OllamaResponse) :
    GoOutcome PromptResponse × Prompt × OllamaChatRequest :=
  let msgMap := prompt.AsMap
  let req : OllamaChatRequest :=
    { model := o.Model, messages := msgMap, stream := false,
      tools := if opts.disableTools then none else some (ToolsMap prompt.Tools) }
  if result.Message.ToolCalls.isEmpty then
    (.ok { Role := "assistant", Content := result.Message.Content },
     prompt.AddMessage "assistant" result.Message.Content, req)
  else
    match ollamaToolLoop prompt.Tools prompt [] result.Message.ToolCalls with
    | (.ok calls, p) => (.ok { Role := "tool", ToolCalls := calls }, p, req)
    | (.err e, p) => (.err e, p, req)
    | (.panic s, p) => (.panic s, p, req)

/-- Converse from the Ollama adapter: one round trip; if it failed with
`errors.Is(err, ErrToolNotFound)`, exactly one more round trip with
`disableTools = true`. `oracle i` is the decoded response to the `i`-th
outbound request; the requests issued are returned in order. -/
def OllamaBackend.Converse (o : OllamaBackend)
    (oracle : Nat → OllamaResponse) (prompt : Prompt) :
    GoOutcome PromptResponse × Prompt × List OllamaChatRequest :=
  match o.converseRoundTrip prompt {} (oracle 0) with
  | (.err e, p1, req1) =>
    if e.isToolNotFound then
      match o.converseRoundTrip p1 { disableTools := true } (oracle 1) with
      | (r2, p2, req2) => (r2, p2, [req1, req2])
    else (.err e, p1, [req1])
  | (r1, p1, req1) => (r1, p1, [req1])

/-- OpenAIToolFunction from the OpenAI adapter: `Arguments` is the raw JSON
string carrying the call's arguments. -/
structure OpenAIToolFunction where
  Name : String
  Arguments : String

/-- OpenAIToolCall from the OpenAI adapter. -/
structure OpenAIToolCall where
  ID : String
  Type' : String
  Function : OpenAIToolFunction

/-- The message of one choice of an `OpenAIResponse`. -/
structure OpenAIChoiceMessage where
  Role : String := ""
  Content : String := ""
  ToolCalls : List OpenAIToolCall := []

/-- One entry of the `choices` array of an `OpenAIResponse`. -/
structure OpenAIChoice where
  Index : Int := 0
  Message : OpenAIChoiceMessage := {}
  FinishReason : String := ""

/-- OpenAIResponse from the OpenAI adapter (usage statistics carried but
unused by the adapter logic). -/
structure OpenAIResponse where
  ID : String := ""
  Object : String := ""
  Created : Int := 0
  Model : String := ""
  Choices : List OpenAIChoice := []
  PromptTokens : Int := 0
  CompletionTokens : Int := 0
  TotalTokens : Int := 0

/-- OpenAIBackend configuration (the HTTP client itself is external). -/
structure OpenAIBackend where
  APIKey : String := ""
  Model : String := ""
  BaseURL : String := ""

/-- The request body the OpenAI `Converse` marshals and POSTs to
`/v1/chat/completions`:
`{"model": ..., "messages": msgMap, "stream": false, "tools": toolMap}`. -/
structure OpenAIChatRequest where
  model : String
  messages : List (List (String × JValue))
  stream : Bool
  tools : List (List (String × JValue))

/-- Signature of `json.Unmarshal([]byte(toolArgs), &parsedArgs)` for a
`map[string]interface{}` target: external `encoding/json` collaborator,
passed in as a parameter. -/
def ArgsUnmarshal : Type := String → Except GoError (List (String × JValue))

/-- The `tool_calls`-carrying assistant message the OpenAI `Converse` appends
before each tool result; every field is taken from the tool call `tc0`, which
the Go code reads as `result.Choices[0].Message.ToolCalls[0]` on every loop
iteration. The Go map literal sets `"type"` then `"tool_calls"`. -/
def openaiEnvelopeMsg (tc0 : OpenAIToolCall) : Message :=
  { Role := "assistant", Content := "",
    Fields :=
      [("type", .str tc0.Type'),
       ("tool_calls", .arr
          [.obj
            [("id", .str tc0.ID),
             ("type", .str tc0.Type'),
             ("function", .obj
                [("name", .str tc0.Function.Name),
                 ("arguments", .str tc0.Function.Arguments)])]])] }

/-- The tool-result message the OpenAI `Converse` appends after the envelope;
its `tool_call_id` field is `result.Choices[0].Message.ToolCalls[0].ID`. -/
def openaiToolResultMsg (tc0 : OpenAIToolCall) (toolResponse : String) :
    Message :=
  { Role := "tool", Content := toolResponse,
    Fields := [("tool_call_id", .str tc0.ID)] }

/-- The `for _, toolCall := range result.Choices[0].Message.ToolCalls` loop
of the OpenAI `Converse`: unmarshals the call's argument string, executes the
tool (any execution error is returned wrapped, with no retry), appends the
`tc0`-based envelope and tool-result messages, and accumulates a `ToolCall`
record. `tc0` is the fixed `result.Choices[0].Message.ToolCalls[0]` the Go
loop body re-reads on every iteration. -/
def openaiToolLoop (unmarshal : ArgsUnmarshal) (tools : ToolRegistry)
    (tc0 : OpenAIToolCall) (prompt : Prompt) (acc : List ToolCall) :
    List OpenAIToolCall → GoOutcome (List ToolCall) × Prompt
  | [] => (.ok acc, prompt)
  | toolCall :: rest =>
    let toolName := toolCall.Function.Name
    let toolArgs := toolCall.Function.Arguments
    match unmarshal toolArgs with
    | .error e => (.err (.wrap "failed to unmarshal tool arguments" e), prompt)
    | .ok parsedArgs =>
      let execRes := ExecuteTool tools toolName parsedArgs
      match execRes.2 with
      | some e => (.err (.wrap "failed to execute tool" e), prompt)
      | none =>
        openaiToolLoop unmarshal tools tc0
          ((prompt.AppendMessage (openaiEnvelopeMsg tc0)).AppendMessage
            (openaiToolResultMsg tc0 execRes.1))
          (acc ++ [⟨⟨toolName, parsedArgs, .str execRes.1⟩⟩]) rest

/-- Converse from the OpenAI adapter, modelled from the point where the
200-status response has been decoded into `result`; additionally returns the
mutated prompt and the outbound requests issued (always exactly one: this
adapter has no retry path). Accessing `result.Choices[0]` on an empty
`choices` array is the Go panic (index out of range). -/
def OpenAIBackend.Converse (o : OpenAIBackend) (unmarshal : ArgsUnmarshal)
    (result : OpenAIResponse) (prompt : Prompt) :
    GoOutcome PromptResponse × Prompt × List OpenAIChatRequest :=
  let msgMap := prompt.AsMap
  let toolMap := ToolsMap prompt.Tools
  let req : OpenAIChatRequest :=
    { model := o.Model, messages := msgMap, stream := false, tools := toolMap }
  match result.Choices.head? with
  | none => (.panic "index out of range", prompt, [req])
  | some choice0 =>
    match choice0.Message.ToolCalls with
    | [] =>
      (.ok { Role := "assistant", Content := choice0.Message.Content },
       prompt.AddMessage "assistant" choice0.Message.Content, [req])
    | tc0 :: rest =>
      match openaiToolLoop unmarshal prompt.Tools tc0 prompt []
          (tc0 :: rest) with
      | (.ok calls, p) => (.ok { Role := "tool", ToolCalls := calls }, p, [req])
      | (.err e, p) => (.err e, p, [req])
      | (.panic s, p) => (.panic s, p, [req])

/-- Generate from the OpenAI adapter (`part_014` and `openai_backend.go`
behave identically here), modelled from the decoded 200-status response:
returns `result.Choices[0].Message.Content`, panicking when `choices` is
empty. -/
def OpenAIBackend.Generate (_o : OpenAIBackend) (result : OpenAIResponse) :
    GoOutcome String :=
  match result.Choices.head? with
  | none => .panic "index out of range"
  | some choice0 => .ok choice0.Message.Content

/-- Lookup specification for the per-message map `AsMap` builds, written
from the spec's wording for the refinement claim about `AsMap`: an explicit
extra field takes precedence on a key collision; otherwise the `role` and
`content` keys hold the message's role and content. -/
def msgMapSpec (m : Message) (k : String) : Option JValue :=
  match lookupLast m.Fields k with
  | some v => some v
  | none =>
    if k = "role" then some (.str m.Role)
    else if k = "content" then some (.str m.Content)
    else none

/-- Observation on a serialized tool map: the function name it carries. -/
def wireFunctionName (m : List (String × JValue)) : Option String :=
  match mapGet m "function" with
  | some (.obj f) =>
    match mapGet f "name" with
    | some (.str s) => some s
    | _ => none
  | _ => none

/-- The raw output string a successfully executed OpenAI tool call
produces (used to describe the appended tool-result messages). -/
def openaiCallOutput (unmarshal : ArgsUnmarshal) (tools : ToolRegistry)
    (tc : OpenAIToolCall) : String :=
  match unmarshal tc.Function.Arguments with
  | .ok a => (ExecuteTool tools tc.Function.Name a).1
  | .error _ => ""

/-- Fixture: the Scenario A weather tool (its executor always succeeds). -/
def weatherTool : Tool :=
  { Type' := "function",
    Function :=
      { Name := "weather", Description := "city weather",
        Parameters := .obj [], Wrapper := fun _ => ("London 15C Rainy", none) } }

/-- Fixture: a re-registration of the weather tool with a new wrapper. -/
def weatherToolV2 : Tool :=
  { Type' := "function",
    Function :=
      { Name := "weather", Description := "city weather v2",
        Parameters := .obj [], Wrapper := fun _ => ("updated", none) } }

/-- Fixture: a second registered tool, also succeeding. -/
def timeTool : Tool :=
  { Type' := "function",
    Function :=
      { Name := "time", Description := "city local time",
        Parameters := .obj [], Wrapper := fun _ => ("12:00", none) } }

/-- Fixture: the Scenario B tool whose executor itself fails. -/
def atlantisTool : Tool :=
  { Type' := "function",
    Function :=
      { Name := "atlantis", Description := "city weather",
        Parameters := .obj [],
        Wrapper := fun _ => ("", some (.errorf "city not found")) } }

/-- Fixture registry holding the three fixture tools. -/
def fixtureRegistry : ToolRegistry :=
  RegisterTool (RegisterTool (RegisterTool NewToolRegistry weatherTool)
    timeTool) atlantisTool

/-- Fixture prompt owning `fixtureRegistry`, with one user message. -/
def fixturePrompt : Prompt :=
  { Messages := [{ Role := "user", Content := "weather in London" }],
    Tools := fixtureRegistry }

/-- Fixture Ollama response issuing one argument-free tool call per name. -/
def ollamaCallsResp (names : List String) : OllamaResponse :=
  { Message := { Role := "assistant",
                 ToolCalls := names.map (fun n => ⟨⟨n, []⟩⟩) } }

/-- Fixture Ollama response with a plain assistant reply and no tool calls. -/
def ollamaPlainResp (content : String) : OllamaResponse :=
  { Message := { Role := "assistant", Content := content } }

/-- Fixture OpenAI tool call. -/
def openaiCall (id name : String) : OpenAIToolCall :=
  { ID := id, Type' := "function",
    Function := { Name := name, Arguments := "raw-args" } }

/-- Fixture OpenAI response whose single choice issues the given calls. -/
def openaiCallsResp (calls : List OpenAIToolCall) : OpenAIResponse :=
  { Choices := [{ Message := { Role := "assistant", ToolCalls := calls } }] }

/-- Fixture argument unmarshaller: every argument string parses to the
empty argument map. -/
def fixtureUnmarshal : ArgsUnmarshal := fun _ => .ok []

/-- The parsed argument map of an OpenAI tool call whose argument string
unmarshals successfully. -/
def openaiCallArgs (unmarshal : ArgsUnmarshal) (tc : OpenAIToolCall) :
    List (String × JValue) :=
  match unmarshal tc.Function.Arguments with
  | .ok a => a
  | .error _ => []

/-- The `tool`-role messages an all-successful Ollama tool round appends:
one per call, carrying the raw executor output. -/
def ollamaToolMsgs (tools : ToolRegistry) (calls : List OllamaToolCall) :
    List Message :=
  calls.map (fun tc =>
    ⟨"tool", (ExecuteTool tools tc.Function.Name tc.Function.Arguments).1, []⟩)

/-- The `ToolCall` records an all-successful Ollama tool round returns. -/
def ollamaCallRecords (tools : ToolRegistry) (calls : List OllamaToolCall) :
    List ToolCall :=
  calls.map (fun tc =>
    ⟨⟨tc.Function.Name, tc.Function.Arguments,
      .str (ExecuteTool tools tc.Function.Name tc.Function.Arguments).1⟩⟩)

/-- The messages an all-successful OpenAI tool round appends: per call, the
`tc0`-based assistant envelope followed by the `tc0`-id tool result whose
content is that call's executor output. -/
def openaiAppendedMsgs (um : ArgsUnmarshal) (tools : ToolRegistry)
    (tc0 : OpenAIToolCall) (calls : List OpenAIToolCall) : List Message :=
  calls.flatMap (fun tc =>
    [openaiEnvelopeMsg tc0,
     openaiToolResultMsg tc0 (openaiCallOutput um tools tc)])

/-- The `ToolCall` records an all-successful OpenAI tool round returns. -/
def openaiCallRecords (um : ArgsUnmarshal) (tools : ToolRegistry)
    (calls : List OpenAIToolCall) : List ToolCall :=
  calls.map (fun tc =>
    ⟨⟨tc.Function.Name, openaiCallArgs um tc,
      .str (openaiCallOutput um tools tc)⟩⟩)

/-! ## Supporting lemmas -/

theorem mapGet_nil {α : Type} (k : String) :
    mapGet ([] : List (String × α)) k = none := rfl

theorem find?_filter_ne {α : Type} (m : List (String × α)) (k k' : String)
    (h : k' ≠ k) :
    (m.filter (fun p => p.1 ≠ k)).find? (fun p => p.1 == k')
      = m.find? (fun p => p.1 == k') := by
  rw [List.find?_filter]
  congr 1
  funext a
  by_cases hb : a.1 = k'
  · have hak : ¬a.1 = k := by
      intro hh
      exact h (by rw [← hb, hh])
    simp [hb, hak, h]
  · simp [hb]

theorem mapGet_mapSet {α : Type} (m : List (String × α)) (k k' : String)
    (v : α) :
    mapGet (mapSet m k v) k' = if k' = k then some v else mapGet m k' := by
  unfold mapGet mapSet
  rw [List.find?_append]
  by_cases h : k' = k
  · subst h
    have hnone :
        (m.filter (fun p => p.1 ≠ k')).find? (fun p => p.1 == k') = none := by
      rw [List.find?_eq_none]
      intro x hx
      have hx2 := (List.mem_filter.mp hx).2
      simp only [decide_not, Bool.not_eq_true', decide_eq_false_iff_not] at hx2
      simp [hx2]
    rw [hnone]
    simp [Option.or]
  · rw [find?_filter_ne m k k' h]
    have hk : (k == k') = false := by
      simp only [beq_eq_false_iff_ne, ne_eq]
      intro hh
      exact h hh.symm
    simp [Option.or, hk, h]
    cases m.find? (fun p => p.1 == k') <;> simp

theorem lookupLast_cons {α : Type} (kv : String × α)
    (rest : List (String × α)) (k : String) :
    lookupLast (kv :: rest) k =
      match lookupLast rest k with
      | some v => some v
      | none => if kv.1 == k then some kv.2 else none := by
  unfold lookupLast
  rw [List.reverse_cons, List.find?_append]
  cases h : rest.reverse.find? (fun p => p.1 == k) with
  | some v => simp [Option.or, h]
  | none =>
    by_cases hk : kv.1 == k
    · simp [Option.or, h, hk]
    · simp only [Bool.not_eq_true] at hk
      simp [Option.or, h, hk]

theorem mapGet_foldl_mapSet {α : Type} (fields : List (String × α)) :
    ∀ (m0 : List (String × α)) (k : String),
      mapGet (fields.foldl (fun acc kv => mapSet acc kv.1 kv.2) m0) k
        = match lookupLast fields k with
          | some v => some v
          | none => mapGet m0 k := by
  induction fields with
  | nil => intro m0 k; simp [lookupLast]
  | cons kv rest ih =>
    intro m0 k
    rw [List.foldl_cons, ih, lookupLast_cons]
    cases h : lookupLast rest k with
    | some v => simp
    | none =>
      by_cases hk : kv.1 == k
      · have : k = kv.1 := (eq_of_beq hk).symm
        simp [hk, mapGet_mapSet, this]
      · simp only [Bool.not_eq_true] at hk
        have : ¬(k = kv.1) := by
          intro hh
          simp [hh] at hk
        simp [hk, mapGet_mapSet, this]

/-! ## Claims about the tool registry and serialization -/

/-- C5: for every registry state and argument map, `ExecuteTool` with a name
that is not a key of the registry returns the empty string together with an
error wrapping `ErrToolNotFound` (so `errors.Is(err, ErrToolNotFound)`
holds), and the result is a constant that involves no registered wrapper. -/
theorem C5_executeTool_missing (r : ToolRegistry) (toolName : String)
    (args : List (String × JValue)) (h : mapGet r toolName = none) :
    ExecuteTool r toolName args
      = ("", some (.wrap toolName .toolNotFound)) ∧
    (GoError.wrap toolName .toolNotFound).isToolNotFound = true := by
  constructor
  · unfold ExecuteTool
    rw [h]
  · rfl

theorem C5_executeTool_missing_witness :
    ExecuteTool fixtureRegistry "missing-tool" []
      = ("", some (.wrap "missing-tool" .toolNotFound)) :=
  (C5_executeTool_missing fixtureRegistry "missing-tool" [] (by rfl)).1

/-- C6: `AsMap` returns exactly one map per message, in message order, and
each per-message map satisfies the lookup specification: an explicit extra
field overrides the `role`/`content` values on key collision, otherwise
`role` and `content` hold the message's role and content and all extra
fields are present. -/
theorem C6_asMap_shape (p : Prompt) :
    p.AsMap = p.Messages.map msgToMap ∧
    ∀ (m : Message) (k : String), mapGet (msgToMap m) k = msgMapSpec m k := by
  refine ⟨rfl, fun m k => ?_⟩
  unfold msgToMap msgMapSpec
  rw [mapGet_foldl_mapSet]
  cases h : lookupLast m.Fields k with
  | some v => simp
  | none =>
    by_cases hr : k = "role"
    · simp [hr, mapGet_mapSet]
    · by_cases hc : k = "content"
      · simp [hc, mapGet_mapSet]
      · simp [hr, hc, mapGet_mapSet, mapGet_nil]

/-- C8: registration is total and last-write-wins: the registered tool is
found under its function name in every prior registry state, other names
are untouched, and after re-registering a same-named tool, `ExecuteTool`
invokes the most recently registered wrapper. -/
theorem C8_register_last_write_wins (r : ToolRegistry) (t t' : Tool)
    (n : String) (args : List (String × JValue))
    (hne : n ≠ t.Function.Name)
    (_hsame : t'.Function.Name = t.Function.Name) :
    mapGet (RegisterTool r t) t.Function.Name = some t ∧
    mapGet (RegisterTool r t) n = mapGet r n ∧
    ExecuteTool (RegisterTool (RegisterTool r t') t) t.Function.Name args
      = t.Function.Wrapper args := by
  refine ⟨?_, ?_, ?_⟩
  · unfold RegisterTool
    rw [mapGet_mapSet]
    simp
  · unfold RegisterTool
    rw [mapGet_mapSet]
    simp [hne]
  · unfold ExecuteTool RegisterTool
    rw [mapGet_mapSet]
    simp

theorem C8_register_last_write_wins_witness :
    ExecuteTool
        (RegisterTool (RegisterTool NewToolRegistry weatherTool)
          weatherToolV2)
        "weather" [] = ("updated", none) :=
  (C8_register_last_write_wins NewToolRegistry weatherToolV2 weatherTool
      "time" [] (by decide) rfl).2.2

/-- C7 (amended): `AsMap` is a pure function of the conversation, so
repeated calls yield identical results; `ToolsMap`, whose Go map iteration
order is unspecified, yields on any two calls (any two iteration orders of
the same unmutated registry) lists of equal length with the same serialized
tool maps up to permutation; neither call mutates the conversation or the
registry (both are modelled as read-only functions). -/
theorem C7_serialization_stable (r : ToolRegistry)
    (e1 e2 : List (String × Tool)) (h1 : e1.Perm r) (h2 : e2.Perm r) :
    (ToolsMapIter e1).length = (ToolsMapIter e2).length ∧
    (ToolsMapIter e1).Perm (ToolsMapIter e2) ∧
    (ToolsMapIter e1).Perm (ToolsMap r) := by
  have hp : e1.Perm e2 := h1.trans h2.symm
  have hm : (ToolsMapIter e1).Perm (ToolsMapIter e2) := by
    unfold ToolsMapIter
    exact hp.map _
  refine ⟨hm.length_eq, hm, ?_⟩
  unfold ToolsMap ToolsMapIter
  exact h1.map _

theorem C7_serialization_stable_witness :
    (ToolsMapIter [("weather", weatherTool), ("time", timeTool)]).length
      = (ToolsMapIter [("time", timeTool), ("weather", weatherTool)]).length :=
  (C7_serialization_stable
      [("weather", weatherTool), ("time", timeTool)]
      [("weather", weatherTool), ("time", timeTool)]
      [("time", timeTool), ("weather", weatherTool)]
      (List.Perm.refl _) (List.Perm.swap _ _ _)).1

/-- C7 (counterexample to the claim as stated): two calls to `ToolsMap` on
the same two-tool registry with no intervening mutation may iterate the
underlying Go map in different orders; the two results then have equal
length but are not per-entry equal (the serialized function names at entry 0
differ), refuting per-entry equality of key/value content. -/
theorem C7_per_entry_counterexample :
    (([("weather", weatherTool), ("time", timeTool)] :
        List (String × Tool)).Perm
      [("time", timeTool), ("weather", weatherTool)]) ∧
    (ToolsMapIter [("weather", weatherTool), ("time", timeTool)]).map
        wireFunctionName
      ≠ (ToolsMapIter [("time", timeTool), ("weather", weatherTool)]).map
        wireFunctionName := by
  constructor
  · exact List.Perm.swap _ _ _
  · decide

/-! ## Ollama driver lemmas -/

theorem ollamaToolLoop_nil (tools : ToolRegistry) (p : Prompt)
    (acc : List ToolCall) :
    ollamaToolLoop tools p acc [] = (.ok acc, p) := rfl

theorem ollamaToolLoop_cons_notFound (tools : ToolRegistry) (p : Prompt)
    (acc : List ToolCall) (c : OllamaToolCall) (rest : List OllamaToolCall)
    (e : GoError)
    (hce : (ExecuteTool tools c.Function.Name c.Function.Arguments).2 = some e)
    (he : e.isToolNotFound = true) :
    ollamaToolLoop tools p acc (c :: rest) = (.err .toolNotFound, p) := by
  simp only [ollamaToolLoop]
  rw [hce]
  simp [he]

theorem ollamaToolLoop_cons_otherErr (tools : ToolRegistry) (p : Prompt)
    (acc : List ToolCall) (c : OllamaToolCall) (rest : List OllamaToolCall)
    (e : GoError)
    (hce : (ExecuteTool tools c.Function.Name c.Function.Arguments).2 = some e)
    (he : e.isToolNotFound = false) :
    ollamaToolLoop tools p acc (c :: rest)
      = (.err (.wrap "failed to execute tool" e), p) := by
  simp only [ollamaToolLoop]
  rw [hce]
  simp [he]

theorem ollamaToolLoop_cons_ok (tools : ToolRegistry) (p : Prompt)
    (acc : List ToolCall) (c : OllamaToolCall) (rest : List OllamaToolCall)
    (hce : (ExecuteTool tools c.Function.Name c.Function.Arguments).2 = none) :
    ollamaToolLoop tools p acc (c :: rest)
      = ollamaToolLoop tools
          (p.AddMessage "tool"
            (ExecuteTool tools c.Function.Name c.Function.Arguments).1)
          (acc ++ [⟨⟨c.Function.Name, c.Function.Arguments,
            .str (ExecuteTool tools c.Function.Name c.Function.Arguments).1⟩⟩])
          rest := by
  simp only [ollamaToolLoop]
  rw [hce]

/-- Messages the Ollama tool loop appends when every call succeeds: one
`tool`-role message per call carrying the raw executor output. -/
theorem ollamaToolLoop_success (tools : ToolRegistry)
    (calls : List OllamaToolCall) :
    ∀ (p : Prompt) (acc : List ToolCall),
      (∀ tc ∈ calls,
        (ExecuteTool tools tc.Function.Name tc.Function.Arguments).2 = none) →
      ollamaToolLoop tools p acc calls
        = (.ok (acc ++ calls.map (fun tc =>
              ⟨⟨tc.Function.Name, tc.Function.Arguments,
                .str (ExecuteTool tools tc.Function.Name
                  tc.Function.Arguments).1⟩⟩)),
           { p with Messages := p.Messages ++ calls.map (fun tc =>
              { Role := "tool",
                Content := (ExecuteTool tools tc.Function.Name
                  tc.Function.Arguments).1 }) }) := by
  induction calls with
  | nil => intro p acc _; simp [ollamaToolLoop_nil]
  | cons c rest ih =>
    intro p acc h
    have hc := h c (List.mem_cons_self c rest)
    rw [ollamaToolLoop_cons_ok tools p acc c rest hc]
    rw [ih _ _ (fun tc htc => h tc (List.mem_cons_of_mem c htc))]
    simp [Prompt.AddMessage]

/-- The Ollama tool loop never removes messages: its final prompt extends
the initial one and keeps its registry. -/
theorem ollamaToolLoop_msgs (tools : ToolRegistry)
    (calls : List OllamaToolCall) :
    ∀ (p : Prompt) (acc : List ToolCall),
      ∃ t, ((ollamaToolLoop tools p acc calls).2).Messages = p.Messages ++ t
        ∧ ((ollamaToolLoop tools p acc calls).2).Tools = p.Tools := by
  induction calls with
  | nil => intro p acc; exact ⟨[], by simp [ollamaToolLoop_nil], rfl⟩
  | cons c rest ih =>
    intro p acc
    cases hce : (ExecuteTool tools c.Function.Name c.Function.Arguments).2 with
    | some e =>
      by_cases he : e.isToolNotFound
      · rw [ollamaToolLoop_cons_notFound tools p acc c rest e hce he]
        exact ⟨[], by simp, rfl⟩
      · rw [ollamaToolLoop_cons_otherErr tools p acc c rest e hce
          (by simpa using he)]
        exact ⟨[], by simp, rfl⟩
    | none =>
      rw [ollamaToolLoop_cons_ok tools p acc c rest hce]
      obtain ⟨t, ht, htools⟩ := ih
        (p.AddMessage "tool"
          (ExecuteTool tools c.Function.Name c.Function.Arguments).1)
        (acc ++ [⟨⟨c.Function.Name, c.Function.Arguments,
          .str (ExecuteTool tools c.Function.Name c.Function.Arguments).1⟩⟩])
      refine ⟨⟨"tool",
          (ExecuteTool tools c.Function.Name c.Function.Arguments).1, []⟩
            :: t, ?_, ?_⟩
      · rw [ht]
        simp [Prompt.AddMessage]
      · rw [htools]
        rfl

/-- A round trip only ever appends messages. -/
theorem ollamaRoundTrip_msgs (o : OllamaBackend) (p : Prompt)
    (opts : ollamaConversationOpt) (result : OllamaResponse) :
    ∃ t, ((o.converseRoundTrip p opts result).2.1).Messages
        = p.Messages ++ t := by
  unfold OllamaBackend.converseRoundTrip
  by_cases h : result.Message.ToolCalls.isEmpty
  · exact ⟨[⟨"assistant", result.Message.Content, []⟩],
      by simp [h, Prompt.AddMessage]⟩
  · obtain ⟨t, ht, _⟩ :=
      ollamaToolLoop_msgs p.Tools result.Message.ToolCalls p []
    rcases hl : ollamaToolLoop p.Tools p [] result.Message.ToolCalls
      with ⟨res, p'⟩
    rw [hl] at ht
    simp only at ht
    cases res <;> exact ⟨t, by simp [h, hl, ht]⟩

/-- A full `Converse` call only ever appends messages. -/
theorem ollamaConverse_msgs (o : OllamaBackend)
    (oracle : Nat → OllamaResponse) (p : Prompt) :
    ∃ t, ((o.Converse oracle p).2.1).Messages = p.Messages ++ t := by
  unfold OllamaBackend.Converse
  obtain ⟨t1, ht1⟩ := ollamaRoundTrip_msgs o p {} (oracle 0)
  rcases h1 : o.converseRoundTrip p {} (oracle 0) with ⟨r1, p1, req1⟩
  rw [h1] at ht1
  simp only at ht1
  cases r1 with
  | ok r => exact ⟨t1, by simp [ht1]⟩
  | panic s => exact ⟨t1, by simp [ht1]⟩
  | err e =>
    by_cases he : e.isToolNotFound
    · obtain ⟨t2, ht2⟩ :=
        ollamaRoundTrip_msgs o p1 { disableTools := true } (oracle 1)
      rcases h2 : o.converseRoundTrip p1 { disableTools := true } (oracle 1)
        with ⟨r2, p2, req2⟩
      rw [h2] at ht2
      simp only at ht2
      exact ⟨t1 ++ t2, by simp [he, h2, ht2, ht1, List.append_assoc]⟩
    · exact ⟨t1, by simp [he, ht1]⟩

/-! ## OpenAI driver lemmas -/

theorem openaiToolLoop_nil (um : ArgsUnmarshal) (tools : ToolRegistry)
    (tc0 : OpenAIToolCall) (p : Prompt) (acc : List ToolCall) :
    openaiToolLoop um tools tc0 p acc [] = (.ok acc, p) := rfl

theorem openaiToolLoop_cons_badArgs (um : ArgsUnmarshal)
    (tools : ToolRegistry) (tc0 : OpenAIToolCall) (p : Prompt)
    (acc : List ToolCall) (c : OpenAIToolCall) (rest : List OpenAIToolCall)
    (e : GoError) (hu : um c.Function.Arguments = .error e) :
    openaiToolLoop um tools tc0 p acc (c :: rest)
      = (.err (.wrap "failed to unmarshal tool arguments" e), p) := by
  simp only [openaiToolLoop]
  rw [hu]

theorem openaiToolLoop_cons_execErr (um : ArgsUnmarshal)
    (tools : ToolRegistry) (tc0 : OpenAIToolCall) (p : Prompt)
    (acc : List ToolCall) (c : OpenAIToolCall) (rest : List OpenAIToolCall)
    (a : List (String × JValue)) (e : GoError)
    (hu : um c.Function.Arguments = .ok a)
    (hx : (ExecuteTool tools c.Function.Name a).2 = some e) :
    openaiToolLoop um tools tc0 p acc (c :: rest)
      = (.err (.wrap "failed to execute tool" e), p) := by
  simp only [openaiToolLoop]
  rw [hu]
  simp only
  rw [hx]

theorem openaiToolLoop_cons_ok (um : ArgsUnmarshal) (tools : ToolRegistry)
    (tc0 : OpenAIToolCall) (p : Prompt) (acc : List ToolCall)
    (c : OpenAIToolCall) (rest : List OpenAIToolCall)
    (a : List (String × JValue))
    (hu : um c.Function.Arguments = .ok a)
    (hx : (ExecuteTool tools c.Function.Name a).2 = none) :
    openaiToolLoop um tools tc0 p acc (c :: rest)
      = openaiToolLoop um tools tc0
          ((p.AppendMessage (openaiEnvelopeMsg tc0)).AppendMessage
            (openaiToolResultMsg tc0 (ExecuteTool tools c.Function.Name a).1))
          (acc ++ [⟨⟨c.Function.Name, a,
            .str (ExecuteTool tools c.Function.Name a).1⟩⟩]) rest := by
  simp only [openaiToolLoop]
  rw [hu]
  simp only
  rw [hx]

/-- Messages the OpenAI tool loop appends when every call unmarshals and
executes successfully: per call, one assistant envelope built from `tc0` and
one `tool`-role result message whose id is `tc0.ID` — only the result
content varies. -/
theorem openaiToolLoop_success (um : ArgsUnmarshal) (tools : ToolRegistry)
    (tc0 : OpenAIToolCall) (calls : List OpenAIToolCall) :
    ∀ (p : Prompt) (acc : List ToolCall),
      (∀ tc ∈ calls, ∃ a, um tc.Function.Arguments = .ok a ∧
        (ExecuteTool tools tc.Function.Name a).2 = none) →
      openaiToolLoop um tools tc0 p acc calls
        = (.ok (acc ++ calls.map (fun tc =>
              ⟨⟨tc.Function.Name, openaiCallArgs um tc,
                .str (openaiCallOutput um tools tc)⟩⟩)),
           { p with Messages := p.Messages ++ calls.flatMap (fun tc =>
              [openaiEnvelopeMsg tc0,
               openaiToolResultMsg tc0 (openaiCallOutput um tools tc)]) }) := by
  induction calls with
  | nil => intro p acc _; simp [openaiToolLoop_nil]
  | cons c rest ih =>
    intro p acc h
    obtain ⟨a, hu, hx⟩ := h c (List.mem_cons_self c rest)
    rw [openaiToolLoop_cons_ok um tools tc0 p acc c rest a hu hx]
    rw [ih _ _ (fun tc htc => h tc (List.mem_cons_of_mem c htc))]
    have hargs : openaiCallArgs um c = a := by
      unfold openaiCallArgs
      rw [hu]
    have hout : openaiCallOutput um tools c
        = (ExecuteTool tools c.Function.Name a).1 := by
      unfold openaiCallOutput
      rw [hu]
    simp [Prompt.AppendMessage, hargs, hout, List.append_assoc]

/-- The OpenAI tool loop never removes messages and keeps the registry. -/
theorem openaiToolLoop_msgs (um : ArgsUnmarshal) (tools : ToolRegistry)
    (tc0 : OpenAIToolCall) (calls : List OpenAIToolCall) :
    ∀ (p : Prompt) (acc : List ToolCall),
      ∃ t, ((openaiToolLoop um tools tc0 p acc calls).2).Messages
          = p.Messages ++ t := by
  induction calls with
  | nil => intro p acc; exact ⟨[], by simp [openaiToolLoop_nil]⟩
  | cons c rest ih =>
    intro p acc
    cases hu : um c.Function.Arguments with
    | error e =>
      rw [openaiToolLoop_cons_badArgs um tools tc0 p acc c rest e hu]
      exact ⟨[], by simp⟩
    | ok a =>
      cases hx : (ExecuteTool tools c.Function.Name a).2 with
      | some e =>
        rw [openaiToolLoop_cons_execErr um tools tc0 p acc c rest a e hu hx]
        exact ⟨[], by simp⟩
      | none =>
        rw [openaiToolLoop_cons_ok um tools tc0 p acc c rest a hu hx]
        obtain ⟨t, ht⟩ := ih
          ((p.AppendMessage (openaiEnvelopeMsg tc0)).AppendMessage
            (openaiToolResultMsg tc0 (ExecuteTool tools c.Function.Name a).1))
          (acc ++ [⟨⟨c.Function.Name, a,
            .str (ExecuteTool tools c.Function.Name a).1⟩⟩])
        refine ⟨openaiEnvelopeMsg tc0 :: openaiToolResultMsg tc0
          (ExecuteTool tools c.Function.Name a).1 :: t, ?_⟩
        rw [ht]
        simp [Prompt.AppendMessage]

/-- A full OpenAI `Converse` call only ever appends messages. -/
theorem openaiConverse_msgs (o : OpenAIBackend) (um : ArgsUnmarshal)
    (result : OpenAIResponse) (p : Prompt) :
    ∃ t, ((o.Converse um result p).2.1).Messages = p.Messages ++ t := by
  unfold OpenAIBackend.Converse
  cases hc : result.Choices.head? with
  | none => exact ⟨[], by simp⟩
  | some choice0 =>
    cases htc : choice0.Message.ToolCalls with
    | nil => exact ⟨[⟨"assistant", choice0.Message.Content, []⟩],
        by simp [htc, Prompt.AddMessage]⟩
    | cons tc0 rest =>
      obtain ⟨t, ht⟩ := openaiToolLoop_msgs um p.Tools tc0 (tc0 :: rest) p []
      rcases hl : openaiToolLoop um p.Tools tc0 p [] (tc0 :: rest)
        with ⟨res, p'⟩
      rw [hl] at ht
      simp only at ht
      cases res <;> exact ⟨t, by simp [htc, hl, ht]⟩

/-- Length of the two-message-per-call append. -/
theorem length_flatMap_pair {α β : Type} (l : List α) (f g : α → β) :
    (l.flatMap (fun x => [f x, g x])).length = 2 * l.length := by
  induction l with
  | nil => rfl
  | cons x xs ih =>
    rw [List.flatMap_cons, List.length_append, ih, List.length_cons]
    simp
    ring

/-! ## Round-trip characterizations -/

/-- The request a round trip issues is determined by the prompt and the
options alone: tools are attached exactly when not disabled. -/
theorem ollamaRoundTrip_req (o : OllamaBackend) (p : Prompt)
    (opts : ollamaConversationOpt) (result : OllamaResponse) :
    (o.converseRoundTrip p opts result).2.2
      = { model := o.Model, messages := p.AsMap, stream := false,
          tools := if opts.disableTools then none
                   else some (ToolsMap p.Tools) } := by
  unfold OllamaBackend.converseRoundTrip
  by_cases h : result.Message.ToolCalls.isEmpty
  · simp [h]
  · rcases hl : ollamaToolLoop p.Tools p [] result.Message.ToolCalls
      with ⟨res, p'⟩
    cases res <;> simp [h, hl]

theorem ollamaRoundTrip_noCalls (o : OllamaBackend) (p : Prompt)
    (opts : ollamaConversationOpt) (result : OllamaResponse)
    (h : result.Message.ToolCalls = []) :
    o.converseRoundTrip p opts result
      = (.ok { Role := "assistant", Content := result.Message.Content },
         p.AddMessage "assistant" result.Message.Content,
         { model := o.Model, messages := p.AsMap, stream := false,
           tools := if opts.disableTools then none
                    else some (ToolsMap p.Tools) }) := by
  unfold OllamaBackend.converseRoundTrip
  simp [h]

theorem ollamaRoundTrip_firstMissing (o : OllamaBackend) (p : Prompt)
    (opts : ollamaConversationOpt) (result : OllamaResponse)
    (tc : OllamaToolCall) (rest : List OllamaToolCall)
    (hcalls : result.Message.ToolCalls = tc :: rest)
    (hm : mapGet p.Tools tc.Function.Name = none) :
    o.converseRoundTrip p opts result
      = (.err .toolNotFound, p,
         { model := o.Model, messages := p.AsMap, stream := false,
           tools := if opts.disableTools then none
                    else some (ToolsMap p.Tools) }) := by
  have hx : (ExecuteTool p.Tools tc.Function.Name tc.Function.Arguments).2
      = some (.wrap tc.Function.Name .toolNotFound) := by
    unfold ExecuteTool
    rw [hm]
  unfold OllamaBackend.converseRoundTrip
  rw [hcalls]
  rw [ollamaToolLoop_cons_notFound p.Tools p [] tc rest _ hx
    (by simp [GoError.isToolNotFound])]
  simp

theorem ollamaRoundTrip_firstOtherErr (o : OllamaBackend) (p : Prompt)
    (opts : ollamaConversationOpt) (result : OllamaResponse)
    (tc : OllamaToolCall) (rest : List OllamaToolCall) (e : GoError)
    (hcalls : result.Message.ToolCalls = tc :: rest)
    (hx : (ExecuteTool p.Tools tc.Function.Name tc.Function.Arguments).2
      = some e)
    (he : e.isToolNotFound = false) :
    o.converseRoundTrip p opts result
      = (.err (.wrap "failed to execute tool" e), p,
         { model := o.Model, messages := p.AsMap, stream := false,
           tools := if opts.disableTools then none
                    else some (ToolsMap p.Tools) }) := by
  unfold OllamaBackend.converseRoundTrip
  rw [hcalls]
  rw [ollamaToolLoop_cons_otherErr p.Tools p [] tc rest e hx he]
  simp

theorem ollamaRoundTrip_success (o : OllamaBackend) (p : Prompt)
    (opts : ollamaConversationOpt) (result : OllamaResponse)
    (hne : result.Message.ToolCalls ≠ [])
    (h : ∀ tc ∈ result.Message.ToolCalls,
      (ExecuteTool p.Tools tc.Function.Name tc.Function.Arguments).2 = none) :
    o.converseRoundTrip p opts result
      = (.ok ⟨"tool", "", ollamaCallRecords p.Tools result.Message.ToolCalls⟩,
         { p with Messages :=
             p.Messages ++ ollamaToolMsgs p.Tools result.Message.ToolCalls },
         { model := o.Model, messages := p.AsMap, stream := false,
           tools := if opts.disableTools then none
                    else some (ToolsMap p.Tools) }) := by
  unfold OllamaBackend.converseRoundTrip
  have hie : result.Message.ToolCalls.isEmpty = false := by
    cases hc : result.Message.ToolCalls with
    | nil => exact absurd hc hne
    | cons a l => rfl
  rw [ollamaToolLoop_success p.Tools result.Message.ToolCalls p [] h]
  simp [hie, ollamaCallRecords, ollamaToolMsgs]

/-- An OpenAI `Converse` whose response's first choice carries only
successfully handled tool calls: the envelope and tool-result messages use
the first tool call's data throughout. -/
theorem openaiConverse_success (o : OpenAIBackend) (um : ArgsUnmarshal)
    (result : OpenAIResponse) (p : Prompt) (choice0 : OpenAIChoice)
    (tc0 : OpenAIToolCall) (rest : List OpenAIToolCall)
    (hc : result.Choices.head? = some choice0)
    (htc : choice0.Message.ToolCalls = tc0 :: rest)
    (hs : ∀ tc ∈ choice0.Message.ToolCalls, ∃ a,
      um tc.Function.Arguments = .ok a ∧
      (ExecuteTool p.Tools tc.Function.Name a).2 = none) :
    (o.Converse um result p).1
      = .ok ⟨"tool", "",
          openaiCallRecords um p.Tools choice0.Message.ToolCalls⟩ ∧
    ((o.Converse um result p).2.1).Messages
      = p.Messages
          ++ openaiAppendedMsgs um p.Tools tc0 choice0.Message.ToolCalls := by
  rw [htc] at hs
  unfold OpenAIBackend.Converse
  rw [hc]
  dsimp only
  rw [htc]
  dsimp only
  rw [openaiToolLoop_success um p.Tools tc0 (tc0 :: rest) p [] hs]
  constructor <;> simp [openaiCallRecords, openaiAppendedMsgs]

/-! ## Claims about the conversation drivers -/

/-- C3: against a backend whose every response contains only tool calls
naming tools absent from the registry, a single Ollama `Converse` call
issues exactly 2 outbound requests (the original and the no-tools retry) and
returns the terminal `ErrToolNotFound` sentinel; the request transcript has
no third entry. -/
theorem C3_retry_once_terminal (o : OllamaBackend)
    (oracle : Nat → OllamaResponse) (p : Prompt)
    (h0 : (oracle 0).Message.ToolCalls ≠ [])
    (h1 : (oracle 1).Message.ToolCalls ≠ [])
    (hm0 : ∀ tc ∈ (oracle 0).Message.ToolCalls,
      mapGet p.Tools tc.Function.Name = none)
    (hm1 : ∀ tc ∈ (oracle 1).Message.ToolCalls,
      mapGet p.Tools tc.Function.Name = none) :
    (o.Converse oracle p).2.2.length = 2 ∧
    (o.Converse oracle p).1 = .err .toolNotFound ∧
    GoError.toolNotFound.isToolNotFound = true := by
  obtain ⟨tc0, rest0, hc0⟩ :
      ∃ tc rest, (oracle 0).Message.ToolCalls = tc :: rest := by
    cases hc : (oracle 0).Message.ToolCalls with
    | nil => exact absurd hc h0
    | cons a l => exact ⟨a, l, rfl⟩
  obtain ⟨tc1, rest1, hc1⟩ :
      ∃ tc rest, (oracle 1).Message.ToolCalls = tc :: rest := by
    cases hc : (oracle 1).Message.ToolCalls with
    | nil => exact absurd hc h1
    | cons a l => exact ⟨a, l, rfl⟩
  have hr1 := ollamaRoundTrip_firstMissing o p {} (oracle 0) tc0 rest0 hc0
    (hm0 tc0 (by rw [hc0]; exact List.mem_cons_self tc0 rest0))
  have hr2 := ollamaRoundTrip_firstMissing o p { disableTools := true }
    (oracle 1) tc1 rest1 hc1
    (hm1 tc1 (by rw [hc1]; exact List.mem_cons_self tc1 rest1))
  unfold OllamaBackend.Converse
  rw [hr1]
  dsimp only
  rw [hr2]
  simp [GoError.isToolNotFound]

theorem C3_retry_once_terminal_witness :
    ((({} : OllamaBackend).Converse (fun _ => ollamaCallsResp ["ghost"])
        fixturePrompt).2.2).length = 2 :=
  (C3_retry_once_terminal {} (fun _ => ollamaCallsResp ["ghost"])
    fixturePrompt
    (by simp [ollamaCallsResp])
    (by simp [ollamaCallsResp])
    (by
      intro tc htc
      simp only [ollamaCallsResp, List.map_cons, List.map_nil,
        List.mem_singleton] at htc
      subst htc
      rfl)
    (by
      intro tc htc
      simp only [ollamaCallsResp, List.map_cons, List.map_nil,
        List.mem_singleton] at htc
      subst htc
      rfl)).1

/-- C1 (amended): only the Ollama adapter implements the one-time
no-tools retry: when its first round trip fails with a `ToolNotFound`-class
error, it issues exactly one more request with tool descriptors omitted and
returns that retry's result. The OpenAI adapter issues exactly one request
per `Converse` call and surfaces a `ToolNotFound`-class execution error
instead of retrying. -/
theorem C1_retry_only_ollama :
    (∀ (o : OllamaBackend) (oracle : Nat → OllamaResponse) (p : Prompt)
        (e : GoError) (p1 : Prompt) (req1 : OllamaChatRequest),
      o.converseRoundTrip p {} (oracle 0) = (.err e, p1, req1) →
      e.isToolNotFound = true →
      (o.Converse oracle p).2.2
          = [req1,
             (o.converseRoundTrip p1 { disableTools := true }
               (oracle 1)).2.2] ∧
        req1.tools = some (ToolsMap p.Tools) ∧
        (o.converseRoundTrip p1 { disableTools := true }
          (oracle 1)).2.2.tools = none ∧
        (o.Converse oracle p).1
          = (o.converseRoundTrip p1 { disableTools := true }
              (oracle 1)).1) ∧
    (∀ (o : OpenAIBackend) (um : ArgsUnmarshal) (result : OpenAIResponse)
        (p : Prompt), (o.Converse um result p).2.2.length = 1) ∧
    (∀ (o : OpenAIBackend) (um : ArgsUnmarshal) (result : OpenAIResponse)
        (p : Prompt) (choice0 : OpenAIChoice) (tc0 : OpenAIToolCall)
        (rest : List OpenAIToolCall) (a : List (String × JValue)),
      result.Choices.head? = some choice0 →
      choice0.Message.ToolCalls = tc0 :: rest →
      um tc0.Function.Arguments = .ok a →
      mapGet p.Tools tc0.Function.Name = none →
      (o.Converse um result p).1
        = .err (.wrap "failed to execute tool"
            (.wrap tc0.Function.Name .toolNotFound))) := by
  refine ⟨?_, ?_, ?_⟩
  · intro o oracle p e p1 req1 h he
    have hreq1 := ollamaRoundTrip_req o p {} (oracle 0)
    rw [h] at hreq1
    simp only at hreq1
    have hreq2 := ollamaRoundTrip_req o p1 { disableTools := true } (oracle 1)
    refine ⟨?_, ?_, ?_, ?_⟩
    · unfold OllamaBackend.Converse
      rw [h]
      dsimp only
      rw [he]
      rcases h2 : o.converseRoundTrip p1 { disableTools := true } (oracle 1)
        with ⟨r2, p2, req2⟩
      simp [h2]
    · rw [hreq1]
      rfl
    · rw [hreq2]
      rfl
    · unfold OllamaBackend.Converse
      rw [h]
      dsimp only
      rw [he]
      rcases h2 : o.converseRoundTrip p1 { disableTools := true } (oracle 1)
        with ⟨r2, p2, req2⟩
      simp [h2]
  · intro o um result p
    unfold OpenAIBackend.Converse
    cases hc : result.Choices.head? with
    | none => rfl
    | some choice0 =>
      dsimp only
      cases htc : choice0.Message.ToolCalls with
      | nil => rfl
      | cons tc0 rest =>
        rcases hl : openaiToolLoop um p.Tools tc0 p [] (tc0 :: rest)
          with ⟨res, p'⟩
        cases res <;> simp [hl]
  · intro o um result p choice0 tc0 rest a hc htc hu hm
    have hx : (ExecuteTool p.Tools tc0.Function.Name a).2
        = some (.wrap tc0.Function.Name .toolNotFound) := by
      unfold ExecuteTool
      rw [hm]
    unfold OpenAIBackend.Converse
    rw [hc]
    dsimp only
    rw [htc]
    dsimp only
    rw [openaiToolLoop_cons_execErr um p.Tools tc0 p [] tc0 rest a _ hu hx]

theorem C1_retry_only_ollama_witness :
    ((({} : OllamaBackend).Converse (fun _ => ollamaCallsResp ["ghost"])
        fixturePrompt).2.2).length = 2 ∧
    ((({} : OpenAIBackend).Converse fixtureUnmarshal
        (openaiCallsResp [openaiCall "id1" "weather"])
        fixturePrompt).2.2).length = 1 := by
  constructor
  · have h := (C1_retry_only_ollama.1 {}
      (fun _ => ollamaCallsResp ["ghost"]) fixturePrompt .toolNotFound
      fixturePrompt
      (({} : OllamaBackend).converseRoundTrip fixturePrompt {}
        (ollamaCallsResp ["ghost"])).2.2
      (by
        rw [ollamaRoundTrip_firstMissing {} fixturePrompt {}
          (ollamaCallsResp ["ghost"]) ⟨⟨"ghost", []⟩⟩ [] rfl rfl])
      rfl).1
    rw [h]
    rfl
  · exact C1_retry_only_ollama.2.1 {} fixtureUnmarshal
      (openaiCallsResp [openaiCall "id1" "weather"]) fixturePrompt

/-- C1 (counterexample to the claim as stated): the OpenAI adapter, faced
with a first-attempt tool call for the unregistered name `ghost`, issues
exactly one request and surfaces the `ToolNotFound`-class error instead of
re-issuing the request without tools. -/
theorem C1_openai_no_retry_counterexample :
    ((({} : OpenAIBackend).Converse fixtureUnmarshal
        (openaiCallsResp [openaiCall "id1" "ghost"])
        fixturePrompt).2.2).length = 1 ∧
    (({} : OpenAIBackend).Converse fixtureUnmarshal
        (openaiCallsResp [openaiCall "id1" "ghost"]) fixturePrompt).1
      = .err (.wrap "failed to execute tool"
          (.wrap "ghost" .toolNotFound)) ∧
    (GoError.wrap "failed to execute tool"
        (.wrap "ghost" .toolNotFound)).isToolNotFound = true := by
  exact ⟨rfl, rfl, rfl⟩

/-- C4 (amended): when the first tool call of a response names a registered
tool whose executor returns an error, `Converse` fails with the
`ToolExecutionError`-class error (`failed to execute tool` wrapping the
executor's error) and the conversation is unchanged — for both adapters.
(When a later call fails after earlier successful calls, the messages
already appended for those earlier calls persist; see the
counterexample.) -/
theorem C4_executor_error_first_call :
    (∀ (o : OllamaBackend) (oracle : Nat → OllamaResponse) (p : Prompt)
        (tc : OllamaToolCall) (rest : List OllamaToolCall) (s : String)
        (e : GoError),
      (oracle 0).Message.ToolCalls = tc :: rest →
      ExecuteTool p.Tools tc.Function.Name tc.Function.Arguments
        = (s, some e) →
      e.isToolNotFound = false →
      (o.Converse oracle p).1 = .err (.wrap "failed to execute tool" e) ∧
      (o.Converse oracle p).2.1 = p) ∧
    (∀ (o : OpenAIBackend) (um : ArgsUnmarshal) (result : OpenAIResponse)
        (p : Prompt) (choice0 : OpenAIChoice) (tc : OpenAIToolCall)
        (rest : List OpenAIToolCall) (a : List (String × JValue))
        (s : String) (e : GoError),
      result.Choices.head? = some choice0 →
      choice0.Message.ToolCalls = tc :: rest →
      um tc.Function.Arguments = .ok a →
      ExecuteTool p.Tools tc.Function.Name a = (s, some e) →
      (o.Converse um result p).1 = .err (.wrap "failed to execute tool" e) ∧
      (o.Converse um result p).2.1 = p) := by
  constructor
  · intro o oracle p tc rest s e hcalls hx he
    have hr1 := ollamaRoundTrip_firstOtherErr o p {} (oracle 0) tc rest e
      hcalls (by rw [hx]) he
    unfold OllamaBackend.Converse
    rw [hr1]
    dsimp only
    rw [show (GoError.wrap "failed to execute tool" e).isToolNotFound
        = e.isToolNotFound from rfl, he]
    exact ⟨rfl, rfl⟩
  · intro o um result p choice0 tc rest a s e hc htc hu hx
    unfold OpenAIBackend.Converse
    rw [hc]
    dsimp only
    rw [htc]
    dsimp only
    rw [openaiToolLoop_cons_execErr um p.Tools tc p [] tc rest a e hu
      (by rw [hx])]
    exact ⟨rfl, rfl⟩

theorem C4_executor_error_first_call_witness :
    ((({} : OllamaBackend).Converse (fun _ => ollamaCallsResp ["atlantis"])
        fixturePrompt).1
      = .err (.wrap "failed to execute tool" (.errorf "city not found")) ∧
     (({} : OllamaBackend).Converse (fun _ => ollamaCallsResp ["atlantis"])
        fixturePrompt).2.1 = fixturePrompt) ∧
    ((({} : OpenAIBackend).Converse fixtureUnmarshal
        (openaiCallsResp [openaiCall "id1" "atlantis"]) fixturePrompt).1
      = .err (.wrap "failed to execute tool" (.errorf "city not found")) ∧
     (({} : OpenAIBackend).Converse fixtureUnmarshal
        (openaiCallsResp [openaiCall "id1" "atlantis"])
        fixturePrompt).2.1 = fixturePrompt) := by
  constructor
  · exact C4_executor_error_first_call.1 {}
      (fun _ => ollamaCallsResp ["atlantis"]) fixturePrompt
      ⟨⟨"atlantis", []⟩⟩ [] "" (.errorf "city not found") rfl rfl rfl
  · exact C4_executor_error_first_call.2 {} fixtureUnmarshal
      (openaiCallsResp [openaiCall "id1" "atlantis"]) fixturePrompt
      _ (openaiCall "id1" "atlantis") [] [] "" (.errorf "city not found")
      rfl rfl rfl rfl

/-- C4 (counterexample to the claim as stated): a response carrying a
successful `weather` call followed by the failing `atlantis` call makes
`Converse` fail with the `ToolExecutionError`-class error, yet the
conversation has grown by the one `tool` message appended for the earlier
successful call, so the message count is not unchanged. -/
theorem C4_partial_append_counterexample :
    (({} : OllamaBackend).Converse
        (fun _ => ollamaCallsResp ["weather", "atlantis"]) fixturePrompt).1
      = .err (.wrap "failed to execute tool" (.errorf "city not found")) ∧
    ((({} : OllamaBackend).Converse
        (fun _ => ollamaCallsResp ["weather", "atlantis"])
        fixturePrompt).2.1).Messages.length
      = fixturePrompt.Messages.length + 1 := by
  exact ⟨rfl, rfl⟩

/-- C2 (amended): after any `Converse` call the conversation's message list
extends the original (the count never decreases); a successful call whose
response contains zero tool calls appends exactly 1 assistant message (both
adapters); a successful call whose response contains k ≥ 1 tool calls
appends exactly k messages for the Ollama adapter (one `tool` message per
call) and exactly 2·k messages for the OpenAI adapter (assistant envelope
plus tool result per call) — not "at least 2·k" in general. -/
theorem C2_message_count :
    (∀ (o : OllamaBackend) (oracle : Nat → OllamaResponse) (p : Prompt),
      ∃ t, ((o.Converse oracle p).2.1).Messages = p.Messages ++ t) ∧
    (∀ (o : OpenAIBackend) (um : ArgsUnmarshal) (result : OpenAIResponse)
        (p : Prompt),
      ∃ t, ((o.Converse um result p).2.1).Messages = p.Messages ++ t) ∧
    (∀ (o : OllamaBackend) (oracle : Nat → OllamaResponse) (p : Prompt),
      (oracle 0).Message.ToolCalls = [] →
      ((o.Converse oracle p).2.1).Messages.length
        = p.Messages.length + 1) ∧
    (∀ (o : OpenAIBackend) (um : ArgsUnmarshal) (result : OpenAIResponse)
        (p : Prompt) (choice0 : OpenAIChoice),
      result.Choices.head? = some choice0 →
      choice0.Message.ToolCalls = [] →
      ((o.Converse um result p).2.1).Messages.length
        = p.Messages.length + 1) ∧
    (∀ (o : OllamaBackend) (oracle : Nat → OllamaResponse) (p : Prompt),
      (oracle 0).Message.ToolCalls ≠ [] →
      (∀ tc ∈ (oracle 0).Message.ToolCalls,
        (ExecuteTool p.Tools tc.Function.Name tc.Function.Arguments).2
          = none) →
      ((o.Converse oracle p).2.1).Messages.length
        = p.Messages.length + (oracle 0).Message.ToolCalls.length) ∧
    (∀ (o : OpenAIBackend) (um : ArgsUnmarshal) (result : OpenAIResponse)
        (p : Prompt) (choice0 : OpenAIChoice),
      result.Choices.head? = some choice0 →
      choice0.Message.ToolCalls ≠ [] →
      (∀ tc ∈ choice0.Message.ToolCalls, ∃ a,
        um tc.Function.Arguments = .ok a ∧
        (ExecuteTool p.Tools tc.Function.Name a).2 = none) →
      ((o.Converse um result p).2.1).Messages.length
        = p.Messages.length + 2 * choice0.Message.ToolCalls.length) := by
  refine ⟨ollamaConverse_msgs, openaiConverse_msgs, ?_, ?_, ?_, ?_⟩
  · intro o oracle p h
    have hr1 := ollamaRoundTrip_noCalls o p {} (oracle 0) h
    unfold OllamaBackend.Converse
    rw [hr1]
    simp [Prompt.AddMessage]
  · intro o um result p choice0 hc htc
    unfold OpenAIBackend.Converse
    rw [hc]
    dsimp only
    rw [htc]
    simp [Prompt.AddMessage]
  · intro o oracle p hne h
    have hr1 := ollamaRoundTrip_success o p {} (oracle 0) hne h
    unfold OllamaBackend.Converse
    rw [hr1]
    simp [ollamaToolMsgs]
  · intro o um result p choice0 hc hne hs
    obtain ⟨tc0, rest, htc⟩ :
        ∃ tc rest, choice0.Message.ToolCalls = tc :: rest := by
      cases hcc : choice0.Message.ToolCalls with
      | nil => exact absurd hcc hne
      | cons a l => exact ⟨a, l, rfl⟩
    have h2 := (openaiConverse_success o um result p choice0 tc0 rest
      hc htc hs).2
    rw [h2, List.length_append, openaiAppendedMsgs, length_flatMap_pair]

theorem C2_message_count_witness :
    ((({} : OllamaBackend).Converse (fun _ => ollamaPlainResp "Hello!")
        fixturePrompt).2.1).Messages.length
      = fixturePrompt.Messages.length + 1 ∧
    ((({} : OpenAIBackend).Converse fixtureUnmarshal
        { Choices := [{ Message := { Content := "Hello!" } }] }
        fixturePrompt).2.1).Messages.length
      = fixturePrompt.Messages.length + 1 ∧
    ((({} : OllamaBackend).Converse (fun _ => ollamaCallsResp ["weather"])
        fixturePrompt).2.1).Messages.length
      = fixturePrompt.Messages.length + 1 ∧
    ((({} : OpenAIBackend).Converse fixtureUnmarshal
        (openaiCallsResp [openaiCall "id1" "weather",
          openaiCall "id2" "time"])
        fixturePrompt).2.1).Messages.length
      = fixturePrompt.Messages.length + 2 * 2 := by
  refine ⟨?_, ?_, ?_, ?_⟩
  · exact C2_message_count.2.2.1 {} (fun _ => ollamaPlainResp "Hello!")
      fixturePrompt rfl
  · exact C2_message_count.2.2.2.1 {} fixtureUnmarshal
      { Choices := [{ Message := { Content := "Hello!" } }] }
      fixturePrompt _ rfl rfl
  · exact C2_message_count.2.2.2.2.1 {}
      (fun _ => ollamaCallsResp ["weather"]) fixturePrompt
      (by simp [ollamaCallsResp])
      (by
        intro tc htc
        simp only [ollamaCallsResp, List.map_cons, List.map_nil,
          List.mem_singleton] at htc
        subst htc
        rfl)
  · exact C2_message_count.2.2.2.2.2 {} fixtureUnmarshal
      (openaiCallsResp [openaiCall "id1" "weather", openaiCall "id2" "time"])
      fixturePrompt _ rfl (by simp [openaiCallsResp])
      (by
        intro tc htc
        simp only [openaiCallsResp, List.mem_cons, List.mem_singleton,
          List.not_mem_nil, or_false] at htc
        rcases htc with h | h <;> subst h <;> exact ⟨[], rfl, rfl⟩)

/-- C2 (counterexample to the claim as stated): an Ollama `Converse` whose
response carries k = 1 successfully executed tool call appends exactly one
message, so the count does not increase by at least 2·k = 2. -/
theorem C2_ollama_single_message_counterexample :
    ((({} : OllamaBackend).Converse (fun _ => ollamaCallsResp ["weather"])
        fixturePrompt).2.1).Messages.length
      = fixturePrompt.Messages.length + 1 ∧
    ¬(fixturePrompt.Messages.length + 2 ≤
        ((({} : OllamaBackend).Converse (fun _ => ollamaCallsResp ["weather"])
          fixturePrompt).2.1).Messages.length) := by
  exact ⟨rfl, by decide⟩

/-- C9: when an OpenAI response carries one or more tool calls (all handled
successfully), every assistant envelope message appended is built from the
first tool call `tc0` — its ID, type, function name and argument string —
and every appended tool-result message carries `tc0.ID`; only the tool
message's content (that call's executor output) varies per call. -/
theorem C9_envelope_uses_first_call (o : OpenAIBackend) (um : ArgsUnmarshal)
    (result : OpenAIResponse) (p : Prompt) (choice0 : OpenAIChoice)
    (tc0 : OpenAIToolCall) (rest : List OpenAIToolCall)
    (hc : result.Choices.head? = some choice0)
    (htc : choice0.Message.ToolCalls = tc0 :: rest)
    (hs : ∀ tc ∈ choice0.Message.ToolCalls, ∃ a,
      um tc.Function.Arguments = .ok a ∧
      (ExecuteTool p.Tools tc.Function.Name a).2 = none) :
    ((o.Converse um result p).2.1).Messages
      = p.Messages ++ choice0.Message.ToolCalls.flatMap (fun tc =>
          [openaiEnvelopeMsg tc0,
           openaiToolResultMsg tc0 (openaiCallOutput um p.Tools tc)]) :=
  (openaiConverse_success o um result p choice0 tc0 rest hc htc hs).2

theorem C9_envelope_uses_first_call_witness :
    ((({} : OpenAIBackend).Converse fixtureUnmarshal
        (openaiCallsResp [openaiCall "id1" "weather",
          openaiCall "id2" "time"])
        fixturePrompt).2.1).Messages
      = fixturePrompt.Messages
          ++ [openaiEnvelopeMsg (openaiCall "id1" "weather"),
              openaiToolResultMsg (openaiCall "id1" "weather")
                "London 15C Rainy",
              openaiEnvelopeMsg (openaiCall "id1" "weather"),
              openaiToolResultMsg (openaiCall "id1" "weather") "12:00"] := by
  have h := C9_envelope_uses_first_call {} fixtureUnmarshal
    (openaiCallsResp [openaiCall "id1" "weather", openaiCall "id2" "time"])
    fixturePrompt _ (openaiCall "id1" "weather") [openaiCall "id2" "time"]
    rfl rfl
    (by
      intro tc htc
      simp only [openaiCallsResp, List.mem_cons, List.mem_singleton,
        List.not_mem_nil, or_false] at htc
      rcases htc with h | h <;> subst h <;> exact ⟨[], rfl, rfl⟩)
  rw [h]
  rfl

/-- C10: the OpenAI `Generate` and `Converse` read `Choices[0]` without an
emptiness check: on a decoded 200-status response whose `choices` array is
empty (or absent, which decodes to the empty slice), they abort with the
index-out-of-range panic rather than returning a `DecodeError`-style
error. -/
theorem C10_empty_choices_panic :
    (∀ (o : OpenAIBackend),
      o.Generate { Choices := [] } = .panic "index out of range") ∧
    (∀ (o : OpenAIBackend) (um : ArgsUnmarshal) (p : Prompt),
      (o.Converse um { Choices := [] } p).1
        = .panic "index out of range") ∧
    (∀ (o : OpenAIBackend) (um : ArgsUnmarshal) (p : Prompt) (e : GoError),
      (o.Converse um { Choices := [] } p).1 ≠ .err e) := by
  refine ⟨fun o => rfl, fun o um p => rfl, fun o um p e h => ?_⟩
  rw [show (o.Converse um { Choices := [] } p).1
      = .panic "index out of range" from rfl] at h
  exact GoOutcome.noConfusion h

end Gollm
